import Mathlib

/-!
Verification of the groceries dashboard pipeline
(`dashboard.py`, `groceries.py`, `groceries_full.py`).

The scripts are pandas data transformations.  We embed them shallowly:

* a raw CSV row (`Member_number`, `Date`, `itemDescription`) becomes `Row`,
  with the timestamp embedded as an `Int`;
* a pandas dataframe becomes a `List Row`;
* the one-hot basket matrix (`basket_oh`) becomes the triple
  (`basketRows`, `basketItems`, `basketCell`);
* numeric columns of the rule table (`support`, `confidence`, `lift`)
  become `ℚ`.

All definitions are executable, so every claim can be exercised on concrete
inputs.
-/

namespace Groceries

/-- A raw transaction row of `Groceries_dataset.csv`: customer identifier
(`Member_number`), parsed date (`data['timestamp']`, embedded as `Int`) and
item label (`itemDescription`). -/
structure Row where
  member : String
  date : Int
  item : String
deriving DecidableEq, Repr

/-- `dashboard.py` line 22: `data['order_id'] = data['Member_number']` —
the synthetic transaction id is the customer id. -/
def orderId (r : Row) : String := r.member

/-- `dashboard.py` lines 46-52: keep rows whose date lies in the inclusive
range, then, when the sidebar item selection is non-empty, keep rows whose
item is among the selected items (`isin`). -/
def filterTrans (rows : List Row) (d1 d2 : Int) (sel : List String) : List Row :=
  let byDate := rows.filter (fun r => decide (d1 ≤ r.date) && decide (r.date ≤ d2))
  if sel.isEmpty then byDate else byDate.filter (fun r => sel.contains r.item)

/-- Row labels of the basket matrix produced by
`groupby([key, 'itemDescription']).count().unstack()`: the distinct
transaction keys of the input.  The key function is `Member_number` in
`dashboard.py` and `Member_number + "_" + Date` in `groceries_full.py`;
we abstract over it. -/
def basketRows (key : Row → String) (rows : List Row) : List String :=
  (rows.map key).dedup

/-- Column labels of the basket matrix: the distinct item labels of the
input. -/
def basketItems (rows : List Row) : List String :=
  (rows.map (fun r => r.item)).dedup

/-- The groupby count before `unstack`: number of input rows carrying the
given transaction key and item label (`.fillna(0)` makes absent pairs 0). -/
def basketCount (key : Row → String) (rows : List Row) (t i : String) : Nat :=
  (rows.filter (fun r => key r == t && r.item == i)).length

/-- `dashboard.py` line 59: `applymap(lambda x: 1 if x > 0 else 0)` — a cell
of the one-hot basket matrix. -/
def basketCell (key : Row → String) (rows : List Row) (t i : String) : Nat :=
  if 0 < basketCount key rows t i then 1 else 0

/-- The column sum of the basket matrix for one item (`basket_oh.sum()`
restricted to one column). -/
def colSum (key : Row → String) (rows : List Row) (i : String) : Nat :=
  ((basketRows key rows).map (fun t => basketCell key rows t i)).sum

/-- The number of distinct transaction keys among input rows carrying the
given item label. -/
def distinctTransWith (key : Row → String) (rows : List Row) (i : String) : Nat :=
  ((rows.filter (fun r => r.item == i)).map key).dedup.length

theorem basketCount_pos_iff (key : Row → String) (rows : List Row) (t i : String) :
    0 < basketCount key rows t i ↔ ∃ r ∈ rows, key r = t ∧ r.item = i := by
  unfold basketCount
  rw [List.length_pos]
  constructor
  · intro h
    rcases List.exists_mem_of_ne_nil _ h with ⟨r, hr⟩
    rw [List.mem_filter] at hr
    refine ⟨r, hr.1, ?_⟩
    have := hr.2
    simp only [Bool.and_eq_true, beq_iff_eq] at this
    exact this
  · rintro ⟨r, hrmem, hk, hi⟩
    intro hnil
    have : r ∈ List.filter (fun r => key r == t && r.item == i) rows := by
      rw [List.mem_filter]
      exact ⟨hrmem, by simp [hk, hi]⟩
    rw [hnil] at this
    exact absurd this (List.not_mem_nil r)

theorem basketCell_eq_one_iff (key : Row → String) (rows : List Row) (t i : String) :
    basketCell key rows t i = 1 ↔ ∃ r ∈ rows, key r = t ∧ r.item = i := by
  unfold basketCell
  rw [← basketCount_pos_iff key rows t i]
  constructor
  · intro h
    by_contra hneg
    rw [if_neg hneg] at h
    exact absurd h (by simp)
  · intro h
    rw [if_pos h]

theorem sum_map_ite_eq_countP {β : Type} (l : List β) (p : β → Prop) [DecidablePred p] :
    (l.map (fun t => if p t then 1 else 0)).sum = l.countP (fun t => decide (p t)) := by
  induction l with
  | nil => rfl
  | cons a l ih =>
    rw [List.map_cons, List.sum_cons, ih, List.countP_cons]
    by_cases h : p a
    · simp [h, Nat.add_comm]
    · simp [h]

/-- The column sum for item `i` equals the number of distinct transaction
keys whose transaction contains `i`. -/
theorem colSum_eq_distinctTransWith (key : Row → String) (rows : List Row) (i : String) :
    colSum key rows i = distinctTransWith key rows i := by
  unfold colSum basketCell
  rw [sum_map_ite_eq_countP]
  rw [List.countP_eq_length_filter]
  unfold distinctTransWith
  apply List.Perm.length_eq
  apply (List.perm_ext_iff_of_nodup ?_ ?_).2
  · intro t
    simp only [basketRows, List.mem_filter, List.mem_dedup]
    constructor
    · rintro ⟨htmem, htp⟩
      rw [decide_eq_true_iff, basketCount_pos_iff] at htp
      rcases htp with ⟨r, hrmem, hk, hi⟩
      rw [List.mem_map]
      exact ⟨r, by rw [List.mem_filter]; exact ⟨hrmem, by simp [hi]⟩, hk⟩
    · intro ht
      rw [List.mem_map] at ht
      rcases ht with ⟨r, hrmem, hk⟩
      rw [List.mem_filter] at hrmem
      have hi : r.item = i := by
        have := hrmem.2
        simpa using this
      constructor
      · rw [List.mem_map]
        exact ⟨r, hrmem.1, hk⟩
      · rw [decide_eq_true_iff, basketCount_pos_iff]
        exact ⟨r, hrmem.1, hk, hi⟩
  · exact (List.nodup_dedup _).filter _
  · exact List.nodup_dedup _

/-- C1: for every transaction set and key function, the basket matrix has
one row per distinct transaction key, each column sum counts the distinct
transactions containing that item, and each cell is 1 exactly when the item
occurs at least once in that transaction. -/
theorem basket_oh_spec (key : Row → String) (rows : List Row) :
    (basketRows key rows).length = (rows.map key).dedup.length ∧
    (∀ i : String, colSum key rows i = distinctTransWith key rows i) ∧
    (∀ t i : String, basketCell key rows t i = 1 ↔ ∃ r ∈ rows, key r = t ∧ r.item = i) := by
  refine ⟨rfl, fun i => colSum_eq_distinctTransWith key rows i,
    fun t i => basketCell_eq_one_iff key rows t i⟩

/-- A row of the association-rule table after text normalization:
`antecedents` and `consequents` are comma-joined strings, the metrics are
embedded as rationals. -/
structure Rule where
  antecedents : String
  consequents : String
  support : ℚ
  confidence : ℚ
  lift : ℚ
deriving DecidableEq, Repr

/-- `dashboard.py` lines 69-70: the rule text normalizer
`lambda x: ', '.join(list(x))`, applied to the mining library's set-valued
field presented in its incidental iteration order `list(x)`. -/
def joinTokens (x : List String) : String :=
  String.intercalate (", ") x

/-- Python's `str.split(", ")` on a character list: scan left to right,
cutting at every non-overlapping occurrence of the two-character delimiter
`", "`; `acc` holds the reversed characters of the current token. -/
def splitCS : List Char → List Char → List (List Char)
  | [], acc => [acc.reverse]
  | ',' :: ' ' :: rest, acc => acc.reverse :: splitCS rest []
  | c :: rest, acc => splitCS rest (c :: acc)

/-- Python's `s.split(", ")`, the tokenization used by the recommendation
matcher on the normalizer's comma-joined strings. -/
def splitCommaSpace (s : String) : List String :=
  (splitCS s.data []).map (fun cs => ⟨cs⟩)

/-- `dashboard.py` line 221: `any(item in x.split(", ") for item in
selected_items)` — membership of a selected item in the token list obtained
by splitting the comma-joined antecedent string. -/
def ruleMatches (selected : List String) (ant : String) : Bool :=
  selected.any (fun item => (splitCommaSpace ant).contains item)

/-- `dashboard.py` lines 220-224: rows of the rule table whose antecedent
matches the selection and whose confidence and lift meet the sliders'
minima. -/
def recommendedRules (rules : List Rule) (selected : List String)
    (minConf minLift : ℚ) : List Rule :=
  rules.filter (fun r =>
    ruleMatches selected r.antecedents
      && decide (minConf ≤ r.confidence) && decide (minLift ≤ r.lift))

/-- C2: every rule returned by the recommendation matcher has an antecedent
token that equals one of the selected items, confidence at least the
minimum confidence, and lift at least the minimum lift. -/
theorem recommendedRules_sound (rules : List Rule) (selected : List String)
    (minConf minLift : ℚ) (r : Rule) (hsel : selected ≠ [])
    (hr : r ∈ recommendedRules rules selected minConf minLift) :
    (∃ item ∈ selected, item ∈ splitCommaSpace r.antecedents) ∧
      minConf ≤ r.confidence ∧ minLift ≤ r.lift := by
  rw [recommendedRules, List.mem_filter] at hr
  have h := hr.2
  simp only [Bool.and_eq_true, decide_eq_true_iff, ruleMatches,
    List.any_eq_true, List.elem_iff] at h
  exact ⟨h.1.1, h.1.2, h.2⟩

/-- Witness for C2 at a concrete rule table and selection. -/
theorem recommendedRules_sound_witness :
    (["milk"] : List String) ≠ [] ∧
      (⟨"milk, bread", "eggs", 1, 1, 2⟩ : Rule)
        ∈ recommendedRules [⟨"milk, bread", "eggs", 1, 1, 2⟩] ["milk"] 0 1 ∧
      (∃ item ∈ ["milk"], item ∈ splitCommaSpace
          (⟨"milk, bread", "eggs", 1, 1, 2⟩ : Rule).antecedents) :=
  ⟨by decide, by decide,
   (recommendedRules_sound [⟨"milk, bread", "eggs", 1, 1, 2⟩] ["milk"] 0 1
      ⟨"milk, bread", "eggs", 1, 1, 2⟩ (by decide) (by decide)).1⟩

/-- C7: the matcher's comparison is full-label equality against the tokens
of the antecedent split on the normalizer's delimiter: it matches exactly
when some selected item equals one of the antecedent's item labels, and a
selected item that is merely a substring of the comma-joined antecedent
string does not match. -/
theorem ruleMatches_token_equality :
    (∀ (selected : List String) (ant : String),
        ruleMatches selected ant = true ↔
          ∃ item ∈ selected, ∃ tok ∈ splitCommaSpace ant, item = tok) ∧
      ruleMatches ["whole milk"] ("whole milk, yogurt") = true ∧
      ruleMatches ["milk"] ("whole milk, yogurt") = false := by
  refine ⟨fun selected ant => ?_, by decide, by decide⟩
  rw [ruleMatches, List.any_eq_true]
  constructor
  · rintro ⟨item, hmem, hc⟩
    exact ⟨item, hmem, item, by simpa [List.elem_iff] using hc, rfl⟩
  · rintro ⟨item, hmem, tok, htok, rfl⟩
    exact ⟨item, hmem, by simpa [List.elem_iff] using htok⟩

/-- C5: both filters are idempotent — applying the transaction filter
(date range plus optional item membership) or the recommendation filter
twice with the same criteria yields the same result as applying it once. -/
theorem filter_self_filter_self {α : Type} (p : α → Bool) (l : List α) :
    (l.filter p).filter p = l.filter p := by
  rw [List.filter_filter]
  apply List.filter_congr
  intro a _
  cases h : p a <;> simp [h]

theorem filter_idempotent (rows : List Row) (d1 d2 : Int) (sel : List String)
    (rules : List Rule) (selq : List String) (minConf minLift : ℚ) :
    filterTrans (filterTrans rows d1 d2 sel) d1 d2 sel = filterTrans rows d1 d2 sel ∧
      recommendedRules (recommendedRules rules selq minConf minLift) selq minConf minLift
        = recommendedRules rules selq minConf minLift := by
  constructor
  · unfold filterTrans
    cases hsel : sel.isEmpty
    · simp only [hsel, Bool.false_eq_true, if_false, List.filter_filter]
      apply List.filter_congr
      intro r _
      cases h1 : sel.contains r.item <;>
        cases h2 : decide (d1 ≤ r.date) <;> cases h3 : decide (r.date ≤ d2) <;>
          simp [h1, h2, h3]
    · simp only [hsel, if_true]
      exact filter_self_filter_self _ rows
  · unfold recommendedRules
    exact filter_self_filter_self _ rules

/-- The ordering of `sort_values(by=['confidence','lift'], ascending=False)`
(`dashboard.py` line 226): rule `a` precedes rule `b` when its confidence is
strictly larger, or the confidences are equal and its lift is at least as
large. -/
def ruleOrder (a b : Rule) : Prop :=
  b.confidence < a.confidence ∨ (a.confidence = b.confidence ∧ b.lift ≤ a.lift)

instance : DecidableRel ruleOrder := fun a b => by
  unfold ruleOrder
  infer_instance

instance : IsTotal Rule ruleOrder := ⟨by
  intro a b
  rcases lt_trichotomy a.confidence b.confidence with h | h | h
  · exact Or.inr (Or.inl h)
  · rcases le_total a.lift b.lift with hl | hl
    · exact Or.inr (Or.inr ⟨h.symm, hl⟩)
    · exact Or.inl (Or.inr ⟨h, hl⟩)
  · exact Or.inl (Or.inl h)⟩

instance : IsTrans Rule ruleOrder := ⟨by
  intro a b c hab hbc
  rcases hab with h1 | ⟨h1, h1l⟩ <;> rcases hbc with h2 | ⟨h2, h2l⟩
  · exact Or.inl (lt_trans h2 h1)
  · exact Or.inl (h2 ▸ h1)
  · exact Or.inl (by rw [h1]; exact h2)
  · exact Or.inr ⟨h1.trans h2, le_trans h2l h1l⟩⟩

/-- `dashboard.py` line 226:
`recommended_rules.sort_values(by=['confidence','lift'], ascending=False).head(10)`. -/
def topRecs (rules : List Rule) (selected : List String) (minConf minLift : ℚ) : List Rule :=
  (List.insertionSort ruleOrder (recommendedRules rules selected minConf minLift)).take 10

/-- `dashboard.py` lines 229-232: the set of consequent tokens collected
over the top rows (`suggested_items.update(cons.split(", "))`), minus the
items already in the user's selection. -/
def suggestedItems (top : List Rule) (selected : List String) : List String :=
  ((top.map (fun r => splitCommaSpace r.consequents)).flatten.dedup).filter
    (fun i => !selected.contains i)

theorem not_contains_iff (l : List String) (x : String) :
    ((!l.contains x) = true) ↔ x ∉ l := by
  simp [List.elem_iff]

/-- C3: on a non-empty match set, the recommendation output is sorted by
confidence descending with lift as tie-break, has at most 10 rows, and the
suggested-items set is exactly the union of the top rows' consequent tokens
minus the already-selected items. -/
theorem topRecs_spec (rules : List Rule) (selected : List String)
    (minConf minLift : ℚ)
    (hne : recommendedRules rules selected minConf minLift ≠ []) :
    List.Sorted ruleOrder (topRecs rules selected minConf minLift) ∧
      (topRecs rules selected minConf minLift).length ≤ 10 ∧
      ∀ x : String,
        x ∈ suggestedItems (topRecs rules selected minConf minLift) selected ↔
          ((∃ r ∈ topRecs rules selected minConf minLift,
              x ∈ splitCommaSpace r.consequents) ∧ x ∉ selected) := by
  refine ⟨?_, ?_, ?_⟩
  · exact List.Pairwise.sublist (List.take_sublist _ _)
      (List.sorted_insertionSort ruleOrder _)
  · exact List.length_take_le _ _
  · intro x
    unfold suggestedItems
    rw [List.mem_filter, not_contains_iff]
    constructor
    · rintro ⟨hin, hnot⟩
      rw [List.mem_dedup, List.mem_flatten] at hin
      rcases hin with ⟨l, hl, hx⟩
      rw [List.mem_map] at hl
      rcases hl with ⟨r, hr, rfl⟩
      exact ⟨⟨r, hr, hx⟩, hnot⟩
    · rintro ⟨⟨r, hr, hx⟩, hnot⟩
      refine ⟨?_, hnot⟩
      rw [List.mem_dedup, List.mem_flatten]
      exact ⟨splitCommaSpace r.consequents, List.mem_map_of_mem _ hr, hx⟩

/-- Witness for C3 at a concrete rule table and selection. -/
theorem topRecs_spec_witness :
    recommendedRules [(⟨"milk", "bread", 1, 1, 2⟩ : Rule)] ["milk"] 0 1 ≠ [] ∧
      (topRecs [(⟨"milk", "bread", 1, 1, 2⟩ : Rule)] ["milk"] 0 1).length ≤ 10 :=
  ⟨by decide,
   (topRecs_spec [(⟨"milk", "bread", 1, 1, 2⟩ : Rule)] ["milk"] 0 1 (by decide)).2.1⟩

-- -------------------------------------------------------------------
-- Customer behavior (`dashboard.py` lines 170-171, key metrics 80-81)
-- -------------------------------------------------------------------

/-- The distinct customers of the (filtered) data. -/
def members (rows : List Row) : List String :=
  (rows.map (fun r => r.member)).dedup

/-- `dashboard.py` line 170:
`filtered_data.groupby('Member_number')['order_id'].nunique()` for one
customer: the number of that customer's distinct transaction ids. -/
def custOrders (rows : List Row) (m : String) : Nat :=
  ((rows.filter (fun r => r.member == m)).map orderId).dedup.length

/-- `dashboard.py` line 171: `"Repeat" if x>1 else "First-time"`. -/
def repeatStatus (rows : List Row) (m : String) : String :=
  if 1 < custOrders rows m then ("Repeat") else ("First-time")

/-- `value_counts()` of the classification: how many customers carry the
given label. -/
def classCount (rows : List Row) (c : String) : Nat :=
  ((members rows).filter (fun m => repeatStatus rows m == c)).length

/-- `dashboard.py` line 80: `len(filtered_data['order_id'].unique())`. -/
def totalTransactions (rows : List Row) : Nat :=
  (rows.map orderId).dedup.length

/-- `dashboard.py` line 81: `filtered_data['Member_number'].nunique()`. -/
def totalCustomers (rows : List Row) : Nat :=
  (rows.map (fun r => r.member)).dedup.length

theorem length_filter_add_length_filter_not {α : Type} (p : α → Bool) (l : List α) :
    (l.filter p).length + (l.filter (fun a => !p a)).length = l.length := by
  induction l with
  | nil => rfl
  | cons a l ih =>
    cases h : p a <;> simp [List.filter_cons, h] <;> omega

/-- C4: a customer is classified "Repeat" exactly when their distinct
transaction count exceeds 1, "First-time" otherwise, and the two aggregated
class counts are exactly the numbers of customers on each side of that
test (and partition the customer set). -/
theorem repeat_classification_spec (rows : List Row) (m : String)
    (hm : m ∈ members rows) :
    (repeatStatus rows m = "Repeat" ↔ 1 < custOrders rows m) ∧
      (repeatStatus rows m = "First-time" ↔ ¬1 < custOrders rows m) ∧
      classCount rows ("Repeat")
        = ((members rows).filter (fun x => decide (1 < custOrders rows x))).length ∧
      classCount rows ("First-time")
        = ((members rows).filter (fun x => decide (¬1 < custOrders rows x))).length ∧
      classCount rows ("Repeat") + classCount rows ("First-time")
        = (members rows).length := by
  have hstr : ("First-time" : String) ≠ "Repeat" := by decide
  have hstr2 : ("Repeat" : String) ≠ "First-time" := by decide
  have hrep : ∀ x, (repeatStatus rows x == "Repeat") = decide (1 < custOrders rows x) := by
    intro x
    unfold repeatStatus
    by_cases h : 1 < custOrders rows x <;> simp [h, hstr]
  have hfirst : ∀ x,
      (repeatStatus rows x == "First-time") = decide (¬1 < custOrders rows x) := by
    intro x
    unfold repeatStatus
    by_cases h : 1 < custOrders rows x <;> simp [h, hstr2]
  refine ⟨?_, ?_, ?_, ?_, ?_⟩
  · unfold repeatStatus
    by_cases h : 1 < custOrders rows m <;> simp [h, hstr]
  · unfold repeatStatus
    by_cases h : 1 < custOrders rows m <;> simp [h, hstr2]
  · unfold classCount
    congr 1
    apply List.filter_congr
    intro x _
    exact hrep x
  · unfold classCount
    congr 1
    apply List.filter_congr
    intro x _
    exact hfirst x
  · unfold classCount
    have hpt : (members rows).filter (fun x => repeatStatus rows x == "First-time")
        = (members rows).filter (fun x => !(repeatStatus rows x == "Repeat")) := by
      apply List.filter_congr
      intro x _
      rw [hfirst x, hrep x]
      by_cases h : 1 < custOrders rows x <;> simp [h]
    rw [hpt]
    exact length_filter_add_length_filter_not
      (fun x => repeatStatus rows x == "Repeat") (members rows)

/-- Witness for C4 at a concrete two-customer dataset. -/
theorem repeat_classification_spec_witness :
    ("1001" ∈ members [⟨"1001", 0, "milk"⟩, ⟨"1002", 1, "bread"⟩]) ∧
      (repeatStatus [⟨"1001", 0, "milk"⟩, ⟨"1002", 1, "bread"⟩] ("1001") = "Repeat" ↔
        1 < custOrders [⟨"1001", 0, "milk"⟩, ⟨"1002", 1, "bread"⟩] ("1001")) :=
  ⟨by decide,
   (repeat_classification_spec [⟨"1001", 0, "milk"⟩, ⟨"1002", 1, "bread"⟩] ("1001")
     (by decide)).1⟩

-- -------------------------------------------------------------------
-- Item co-occurrence (`dashboard.py` lines 201-204)
-- -------------------------------------------------------------------

/-- `dashboard.py` line 203: one cell of
`basket_items[top_items].T.dot(basket_items[top_items])` — the inner product
of the two item columns over the basket rows. -/
def coOccurrence (key : Row → String) (rows : List Row) (i j : String) : Nat :=
  ((basketRows key rows).map
    (fun t => basketCell key rows t i * basketCell key rows t j)).sum

/-- `dashboard.py` line 204: the percentage normalization
`co_occurrence / basket_items.shape[0] * 100`. -/
def coOccurrencePct (key : Row → String) (rows : List Row) (i j : String) : ℚ :=
  (coOccurrence key rows i j : ℚ) / ((basketRows key rows).length : ℚ) * 100

/-- C6: the co-occurrence matrix and its percentage normalization are
symmetric in the two items. -/
theorem coOccurrence_symm (key : Row → String) (rows : List Row) (i j : String) :
    coOccurrence key rows i j = coOccurrence key rows j i ∧
      coOccurrencePct key rows i j = coOccurrencePct key rows j i := by
  have h : coOccurrence key rows i j = coOccurrence key rows j i := by
    unfold coOccurrence
    congr 1
    apply List.map_congr_left
    intro t _
    exact Nat.mul_comm _ _
  exact ⟨h, by unfold coOccurrencePct; rw [h]⟩

-- -------------------------------------------------------------------
-- Determinism of the rule text normalizer (C8)
-- -------------------------------------------------------------------

/-- C8 fails on the code: `', '.join(list(x))` joins the item labels in the
set's incidental iteration order, so the same two-element item-set presented
in its two possible iteration orders yields two different strings — the
output is not a function of the item-set alone. -/
theorem joinTokens_order_dependent :
    List.Perm ["whole milk", "yogurt"] ["yogurt", "whole milk"] ∧
      joinTokens ["whole milk", "yogurt"] = "whole milk, yogurt" ∧
      joinTokens ["yogurt", "whole milk"] = "yogurt, whole milk" ∧
      joinTokens ["whole milk", "yogurt"] ≠ joinTokens ["yogurt", "whole milk"] := by
  refine ⟨by decide, rfl, rfl, by decide⟩

-- -------------------------------------------------------------------
-- Empty input (C9): spec-modelled miner and the aggregations
-- -------------------------------------------------------------------

/-- Modelled from the spec: support of an itemset (§3 / glossary) — the
fraction of basket rows whose cell is 1 for every member of the itemset.
The miner itself (mlxtend `apriori` / `association_rules`) is an external
library, declared out of scope by the spec and absent from the source. -/
def supportOf (key : Row → String) (rows : List Row) (s : List String) : ℚ :=
  (((basketRows key rows).filter
      (fun t => s.all (fun i => basketCell key rows t i == 1))).length : ℚ)
    / ((basketRows key rows).length : ℚ)

/-- Modelled from the spec: `apriori(basket_oh, min_support=0.01,
use_colnames=True)` (§4.2 (a)) — the non-empty itemsets over the basket's
columns whose support meets the minimum-support threshold. -/
def frequentItemsets (key : Row → String) (rows : List Row) (minSup : ℚ) :
    List (List String) :=
  (basketItems rows).sublists.filter
    (fun s => !s.isEmpty && decide (minSup ≤ supportOf key rows s))

/-- Modelled from the spec: the candidate rules of one frequent itemset
(§4.2 (b)) — every split into a non-empty antecedent and the complementary
non-empty consequent, annotated with support, confidence and lift as
defined in §3. -/
def rulesFrom (key : Row → String) (rows : List Row) (s : List String) : List Rule :=
  (s.sublists.filter
      (fun a => !a.isEmpty && !(s.filter (fun x => !a.contains x)).isEmpty)).map
    (fun a =>
      let c := s.filter (fun x => !a.contains x)
      { antecedents := joinTokens a
        consequents := joinTokens c
        support := supportOf key rows s
        confidence := supportOf key rows s / supportOf key rows a
        lift := supportOf key rows s / supportOf key rows a / supportOf key rows c })

/-- Modelled from the spec: `association_rules(frequent_itemsets,
metric="lift", min_threshold=1)` (`dashboard.py` line 68) — candidate rules
of all frequent itemsets, kept when the metric meets the threshold. -/
def associationRules (key : Row → String) (rows : List Row)
    (minSup minThreshold : ℚ) : List Rule :=
  ((frequentItemsets key rows minSup).map
    (fun s => rulesFrom key rows s)).flatten.filter
      (fun r => decide (minThreshold ≤ r.lift))

/-- `dashboard.py` line 123: transactions per calendar day —
`groupby(timestamp.dt.date)['order_id'].count()`. -/
def dailyCounts (rows : List Row) : List (Int × Nat) :=
  (rows.map (fun r => r.date)).dedup.map
    (fun d => (d, (rows.filter (fun r => r.date == d)).length))

/-- `dashboard.py` line 152: per-item column sums of the basket matrix
(`basket_oh.sum()`). -/
def itemFreq (key : Row → String) (rows : List Row) : List (String × Nat) :=
  (basketItems rows).map (fun i => (i, colSum key rows i))

/-- C9: on an empty transaction set the basket matrix has zero rows and
zero columns and every aggregation yields an empty structure, and whenever
no itemset meets the minimum support the rule generator yields an empty
rule table — no computation signals an error. -/
theorem empty_input_empty_results (key : Row → String) (rows : List Row)
    (minSup minThreshold : ℚ)
    (hfreq : frequentItemsets key rows minSup = []) :
    basketRows key [] = [] ∧ basketItems [] = [] ∧
      associationRules key rows minSup minThreshold = [] ∧
      frequentItemsets key [] minSup = [] ∧
      members [] = [] ∧ dailyCounts [] = [] ∧ itemFreq key [] = [] := by
  refine ⟨rfl, rfl, ?_, rfl, rfl, rfl, rfl⟩
  unfold associationRules
  rw [hfreq]
  rfl

/-- Witness for C9: with minimum support 1 over the empty basket no itemset
is frequent, and the generated rule table is empty. -/
theorem empty_input_empty_results_witness :
    frequentItemsets (fun r => r.member) [] 1 = [] ∧
      associationRules (fun r => r.member) [] 1 1 = [] :=
  ⟨by decide,
   (empty_input_empty_results (fun r => r.member) [] 1 1 (by decide)).2.2.1⟩

-- -------------------------------------------------------------------
-- The synthetic transaction id (C10)
-- -------------------------------------------------------------------

theorem dedup_of_all_eq {α : Type} [DecidableEq α] (a : α) :
    ∀ l : List α, l ≠ [] → (∀ x ∈ l, x = a) → l.dedup = [a] := by
  intro l
  induction l with
  | nil => intro h _; exact absurd rfl h
  | cons b t ih =>
    intro _ hall
    have hb : b = a := hall b (List.mem_cons_self b t)
    cases ht : t.isEmpty
    · have htne : t ≠ [] := by
        intro hnil
        rw [hnil] at ht
        exact absurd ht (by simp)
      have htd : t.dedup = [a] := ih htne (fun x hx => hall x (List.mem_cons_of_mem _ hx))
      have hmem : b ∈ t := by
        rcases List.exists_mem_of_ne_nil t htne with ⟨c, hc⟩
        have : c = a := hall c (List.mem_cons_of_mem _ hc)
        rw [hb, ← this]
        exact hc
      rw [List.dedup_cons_of_mem hmem, htd]
    · have : t = [] := List.isEmpty_iff.mp ht
      rw [this, hb]
      rfl

/-- C10: because `order_id` is assigned from `Member_number`, the "Total
Transactions" metric always equals the "Total Customers" metric, and every
customer's distinct-transaction count is exactly 1. -/
theorem order_id_is_member (rows : List Row) (m : String)
    (hm : m ∈ members rows) :
    totalTransactions rows = totalCustomers rows ∧ custOrders rows m = 1 := by
  refine ⟨rfl, ?_⟩
  unfold custOrders
  rw [dedup_of_all_eq m]
  · rfl
  · rw [members] at hm
    rw [List.mem_dedup, List.mem_map] at hm
    rcases hm with ⟨r, hr, hrm⟩
    intro hnil
    rw [List.map_eq_nil_iff] at hnil
    have hrf : r ∈ rows.filter (fun r => r.member == m) := by
      rw [List.mem_filter]
      exact ⟨hr, by simp [hrm]⟩
    rw [hnil] at hrf
    exact absurd hrf (List.not_mem_nil r)
  · intro x hx
    rw [List.mem_map] at hx
    rcases hx with ⟨r, hr, hrx⟩
    rw [List.mem_filter] at hr
    have : r.member = m := by simpa using hr.2
    rw [← hrx]
    exact this

/-- Witness for C10 at a concrete dataset. -/
theorem order_id_is_member_witness :
    "1001" ∈ members [⟨"1001", 0, "milk"⟩] ∧
      totalTransactions [⟨"1001", 0, "milk"⟩] = totalCustomers [⟨"1001", 0, "milk"⟩] ∧
      custOrders [⟨"1001", 0, "milk"⟩] ("1001") = 1 := by
  refine ⟨by decide, ?_, ?_⟩
  · exact (order_id_is_member [⟨"1001", 0, "milk"⟩] ("1001") (by decide)).1
  · exact (order_id_is_member [⟨"1001", 0, "milk"⟩] ("1001") (by decide)).2

end Groceries
